import Mathlib

/-!
Shallow embedding of the price-analytics core of `cs2_trading_bot.py`:
the per-item price-history store (`PriceAnalyzer.add_price_point`), the
trend classifier (`detect_trend`), the profit-potential scorer
(`calculate_profit_potential`), the linear-regression forecaster
(`predict_price`) and the recommendation scorer
(`InvestmentAdvisor.analyze_item`).

Modelling conventions:
* Python floats are modelled as exact rationals (`ℚ`); the float literals
  `1.1`, `0.9`, `0.5` of the source become `11/10`, `9/10`, `1/2`.
* Wall-clock time is measured in days, so `timedelta(days=30)` is the
  rational constant `30`, and `datetime.now()` becomes an explicit `now`
  argument (the source calls `now()` twice microseconds apart inside one
  insert; the model uses a single instant).
* The store is modelled per item: one insertion-ordered `List PricePoint`.
* Caught Python exceptions are modelled twice: the primary definitions
  resolve each caught exception branch to the value the handler returns
  (with a comment at the branch), and a second set of `Except`-valued
  definitions (`…E`) mirrors the `try`/`except` structure step by step;
  a refinement theorem connects the two.
-/

namespace CS2

/-- Python `int(x)` applied to a rational: truncation toward zero. -/
def pyInt (q : ℚ) : ℤ :=
  if q < 0 then -(⌊-q⌋) else ⌊q⌋

/-- The `max(0, min(100, x))` clamping idiom used throughout the source. -/
def pyClamp (x : ℤ) : ℤ :=
  max 0 (min 100 x)

/-- Python slice `l[-n:]`: the last `n` elements (the whole list when it has
fewer than `n`). -/
def lastN (n : ℕ) (l : List ℚ) : List ℚ :=
  l.drop (l.length - n)

/-- Python `min(l)`: minimum of a nonempty list by a left fold.  The `[]`
case is arbitrary (Python raises `ValueError` there; see `pyMinE`). -/
def listMin : List ℚ → ℚ
  | [] => 0
  | x :: xs => xs.foldl min x

/-- Python `max(l)`; see `listMin`. -/
def listMax : List ℚ → ℚ
  | [] => 0
  | x :: xs => xs.foldl max x

/-- One stored observation: `{'price': …, 'timestamp': …}` of
`PriceAnalyzer.add_price_point`. -/
structure PricePoint where
  price : ℚ
  timestamp : ℚ
  deriving DecidableEq

/-- `PriceAnalyzer.add_price_point` for one item's series: append the new
point stamped `now`, then keep only the points strictly newer than
`now - 30` days (`cutoff = datetime.now() - timedelta(days=30)`). The
source validates nothing about `price`. -/
def addPricePoint (hist : List PricePoint) (price : ℚ) (now : ℚ) : List PricePoint :=
  (hist ++ [({ price := price, timestamp := now } : PricePoint)]).filter
    (fun p => decide (now - 30 < p.timestamp))

/-- A sequence of `add_price_point` calls on one item: each operation is a
pair `(price, now)`. -/
def runOps (init : List PricePoint) (ops : List (ℚ × ℚ)) : List PricePoint :=
  ops.foldl (fun s op => addPricePoint s op.1 op.2) init

/-- Trend label returned on the insufficient-data paths of `detect_trend`. -/
def labelInsufficient : String := "📊 Недостаточно данных"

/-- Trend label of the all-increasing branch of `detect_trend`. -/
def labelStableGrowth : String := "📈 Стабильный рост"

/-- Trend label of the all-decreasing branch of `detect_trend`. -/
def labelDecline : String := "📉 Падение цены"

/-- Trend label of the `last > first * 1.1` branch of `detect_trend`. -/
def labelStrongGrowth : String := "💹 Сильный рост (+10%+)"

/-- Trend label of the `last < first * 0.9` branch of `detect_trend`. -/
def labelStrongDecline : String := "⚠️ Сильное падение (-10%+)"

/-- Trend label of the final branch of `detect_trend`. -/
def labelStable : String := "➡️ Стабильная цена"

/-- `all(prices[i] < prices[i+1] for i in range(len(prices)-1))`. -/
def allInc (l : List ℚ) : Bool :=
  (List.range (l.length - 1)).all (fun i => decide (l.getD i 0 < l.getD (i + 1) 0))

/-- `all(prices[i] > prices[i+1] for i in range(len(prices)-1))`. -/
def allDec (l : List ℚ) : Bool :=
  (List.range (l.length - 1)).all (fun i => decide (l.getD (i + 1) 0 < l.getD i 0))

/-- `PriceAnalyzer.detect_trend` on one item's stored series (an absent item
is the empty series).  The `try`/`except (IndexError, ZeroDivisionError)`
of the source cannot fire on the taken paths (the slice has at least two
elements and there is no division), so the body is translated directly;
`detectTrendE` models the exception plumbing. -/
def detectTrend (prices : List ℚ) : String :=
  if prices.length < 3 then labelInsufficient
  else
    let ps := lastN 7 prices
    if ps.length < 2 then labelInsufficient
    else if allInc ps then labelStableGrowth
    else if allDec ps then labelDecline
    else if ps.getD (ps.length - 1) 0 > ps.getD 0 0 * (11 / 10) then labelStrongGrowth
    else if ps.getD (ps.length - 1) 0 < ps.getD 0 0 * (9 / 10) then labelStrongDecline
    else labelStable

/-- `PriceAnalyzer.calculate_profit_potential` on one item's stored series.
The branch `firstP = 0` models the `ZeroDivisionError` raised by the
`trend` division and caught by the handler, which returns 50 (reachable
only when the series holds a negative price, since otherwise `min = 0`
already returned 50). -/
def calculateProfitPotential (prices : List ℚ) : ℤ :=
  if prices.length < 5 then 50
  else
    let ps := lastN 14 prices
    let mn := listMin ps
    let mx := listMax ps
    if mn = 0 then 50
    else
      let volatility := (mx - mn) / mn * 100
      let firstP := ps.getD 0 0
      let lastP := ps.getD (ps.length - 1) 0
      if firstP = 0 then 50
      else
        let trend := (lastP - firstP) / firstP * 100
        pyClamp (pyInt (50 + trend * 2 + volatility * (1 / 2)))

/-- The least-squares slope of `predict_price`, verbatim from the source:
`x_mean = n / 2` (the source's value, not the index mean `(n-1)/2`),
`y_mean = sum(prices) / n`, numerator `Σ (i - x_mean) * (p_i - y_mean)`,
denominator `Σ (i - x_mean)²`, with slope 0 when the denominator is 0. -/
def olsSlope (data : List ℚ) : ℚ :=
  let n : ℚ := data.length
  let xMean := n / 2
  let yMean := data.sum / n
  let numerator := (data.enum.map (fun ip => ((ip.1 : ℚ) - xMean) * (ip.2 - yMean))).sum
  let denominator := ((List.range data.length).map (fun i => ((i : ℚ) - xMean) ^ 2)).sum
  if denominator = 0 then 0 else numerator / denominator

/-- Direction string of the neutral forecast branches. -/
def predNeutral : String := "neutral"

/-- Direction string of the `change_percent > 5` branch. -/
def predBullish : String := "bullish"

/-- Direction string of the `change_percent < -5` branch. -/
def predBearish : String := "bearish"

/-- The direction/confidence pair of the dict returned by `predict_price`
(the presentational `message` field is omitted). -/
structure Prediction where
  prediction : String
  confidence : ℤ
  deriving DecidableEq

/-- The `change_percent` quantity of `predict_price`:
`slope * days / prices[-1] * 100` over the last-30-point window. -/
def changePercent (prices : List ℚ) (days : ℤ) : ℚ :=
  let data := lastN 30 prices
  olsSlope data * (days : ℚ) / data.getD (data.length - 1) 0 * 100

/-- `PriceAnalyzer.predict_price` on one item's stored series.  The
`try`/`except` of the source cannot fire on the taken paths (`n ≥ 10`, the
zero denominator and zero last price are checked before each division), so
the body is translated directly; `predictPriceE` models the plumbing. -/
def predictPrice (prices : List ℚ) (days : ℤ) : Prediction :=
  if prices.length < 10 then { prediction := predNeutral, confidence := 0 }
  else
    let data := lastN 30 prices
    let current := data.getD (data.length - 1) 0
    if current = 0 then { prediction := predNeutral, confidence := 0 }
    else
      let cp := olsSlope data * (days : ℚ) / current * 100
      if cp > 5 then
        { prediction := predBullish, confidence := min 85 (pyInt (60 + |cp|)) }
      else if cp < -5 then
        { prediction := predBearish, confidence := min 85 (pyInt (60 + |cp|)) }
      else
        { prediction := predNeutral, confidence := 70 }

/-- Lowercasing as Python `str.lower` acts on the characters occurring in
the trend labels: uppercase Cyrillic А..Я (U+0410–U+042F) moves down by
0x20, ASCII letters via `Char.toLower`, everything else unchanged. -/
def pyLowerChar (c : Char) : Char :=
  if 0x410 ≤ c.toNat ∧ c.toNat ≤ 0x42F then Char.ofNat (c.toNat + 0x20)
  else c.toLower

/-- Whether the first list starts the second (character-by-character). -/
def leadsWith : List Char → List Char → Bool
  | [], _ => true
  | _ :: _, [] => false
  | a :: as, b :: bs => a == b && leadsWith as bs

/-- Python substring containment `needle in hay`. -/
def hasSub (needle : List Char) : List Char → Bool
  | [] => needle.isEmpty
  | c :: rest => leadsWith needle (c :: rest) || hasSub needle rest

/-- The needle of the growth test `'рост' in trend.lower()`. -/
def needleGrowth : List Char := "рост".data

/-- The needle of the decline test `'падение' in trend.lower()`. -/
def needleDecline : List Char := "падение".data

/-- The growth test `'рост' in trend.lower()` of `analyze_item`. -/
def isGrowthStr (t : String) : Bool :=
  hasSub needleGrowth (t.data.map pyLowerChar)

/-- The decline test `'падение' in trend.lower()` of `analyze_item`. -/
def isDeclineStr (t : String) : Bool :=
  hasSub needleDecline (t.data.map pyLowerChar)

/-- `str(x).replace(',', '')` on the volume field. -/
def stripCommas (s : String) : String :=
  String.mk (s.data.filter (fun c => c != ','))

/-- Accumulate a nonempty run of ASCII digits; `none` on any non-digit. -/
def digitsValAux : List Char → ℕ → Option ℕ
  | [], acc => some acc
  | c :: cs, acc => if c.isDigit then digitsValAux cs (acc * 10 + (c.toNat - 48)) else none

/-- Python `int(s)` on a string: optional surrounding spaces, an optional
sign, then a nonempty run of ASCII digits (digit-group underscores and
non-ASCII digits are not modelled). `none` models `ValueError`. -/
def pyParseInt (s : String) : Option ℤ :=
  let cs := ((s.data.dropWhile (fun c => c == ' ')).reverse.dropWhile (fun c => c == ' ')).reverse
  match cs with
  | [] => none
  | '-' :: rest => if rest.isEmpty then none else (digitsValAux rest 0).map (fun n => -(n : ℤ))
  | '+' :: rest => if rest.isEmpty then none else (digitsValAux rest 0).map (fun n => (n : ℤ))
  | _ => (digitsValAux cs 0).map (fun n => (n : ℤ))

/-- Recommendation string of the buy branches of `analyze_item`. -/
def recBuy : String := "🟢 ПОКУПАТЬ"

/-- Recommendation string of the investor watch branch. -/
def recWatch : String := "🟡 НАБЛЮДАТЬ"

/-- Recommendation string of the investor avoid branch. -/
def recAvoid : String := "🔴 НЕ ПОКУПАТЬ"

/-- Recommendation string of the trader conditional-buy branch. -/
def recCondBuy : String := "🟡 ВОЗМОЖНА ПОКУПКА"

/-- Recommendation string of the trader skip branch. -/
def recSkip : String := "🔴 ПРОПУСТИТЬ"

/-- Strategy string of the investor buy branch. -/
def stratInvestBuy : String := "Держать 3-6 месяцев, продать при +20-30%"

/-- Strategy string of the investor watch branch. -/
def stratInvestWatch : String := "Дождаться подтверждения тренда"

/-- Strategy string of the investor avoid branch. -/
def stratInvestAvoid : String := "Высокий риск, искать альтернативы"

/-- Strategy string of the trader buy branch. -/
def stratTradeBuy : String := "Держать 1-2 недели, фиксировать при +10-15%"

/-- Strategy string of the trader conditional-buy branch. -/
def stratTradeCond : String := "Стоп-лосс на -5%"

/-- Strategy string of the trader skip branch. -/
def stratTradeSkip : String := "Недостаточно волатильности"

/-- Pro tag appended by the growth adjustment. -/
def prosTrendTag : String := "📈 Положительный тренд"

/-- Pro tag appended by the volume adjustment. -/
def prosLiquidityTag : String := "💰 Высокая ликвидность"

/-- Pro tag appended by the potential adjustment. -/
def prosPotentialTag : String := "⚡ Высокий потенциал"

/-- Con tag appended by the decline adjustment. -/
def consTrendTag : String := "📉 Отрицательный тренд"

/-- The one mode string the source compares against. -/
def modeInvestor : String := "investor"

/-- The trader mode string (any non-`investor` mode behaves like it). -/
def modeTrader : String := "trader"

/-- The default the source supplies for an absent volume field. -/
def defaultVolume : String := "0"

/-- The news mode string (offered by the bot UI; not special-cased in
`analyze_item`). -/
def modeNews : String := "news"

/-- The mode-dependent recommendation/strategy tail of `analyze_item`, as a
function of the clamped rating: `mode == 'investor'` gets thresholds
70/50, every other mode falls into the `else` (trader) branch with
thresholds 60/45. -/
def recommendationFor (mode : String) (rating : ℤ) : String × String :=
  if mode = modeInvestor then
    if rating > 70 then (recBuy, stratInvestBuy)
    else if rating > 50 then (recWatch, stratInvestWatch)
    else (recAvoid, stratInvestAvoid)
  else
    if rating > 60 then (recBuy, stratTradeBuy)
    else if rating > 45 then (recCondBuy, stratTradeCond)
    else (recSkip, stratTradeSkip)

/-- The analysis dict returned by `InvestmentAdvisor.analyze_item`. -/
structure Analysis where
  rating : ℤ
  recommendation : String
  strategy : String
  pros : List String
  cons : List String
  deriving DecidableEq

/-- The part of `analyze_item` after the volume adjustment: the potential
and decline adjustments, the clamp, and the mode-dependent tail. `s2` is
the (rating, pros) pair accumulated so far. -/
def analyzeFinish (s2 : ℤ × List String) (trend : String) (potential : ℤ)
    (mode : String) : Analysis :=
  let s3 := if potential > 70 then (s2.1 + 10, s2.2 ++ [prosPotentialTag]) else s2
  let s4 := if isDeclineStr trend then (s3.1 - 15, [consTrendTag]) else (s3.1, ([] : List String))
  let rating := pyClamp s4.1
  let rs := recommendationFor mode rating
  { rating := rating, recommendation := rs.1, strategy := rs.2, pros := s3.2, cons := s4.2 }

/-- The volume adjustment of `analyze_item`: parse the comma-stripped
volume field (absent defaults to `"0"`), add 10 and a pro tag when it
exceeds 100, and change nothing when the parse fails (the caught
`ValueError`/`AttributeError`). -/
def volumeAdjust (s1 : ℤ × List String) (volume : Option String) : ℤ × List String :=
  match pyParseInt (stripCommas (volume.getD defaultVolume)) with
  | some v => if v > 100 then (s1.1 + 10, s1.2 ++ [prosLiquidityTag]) else s1
  | none => s1

/-- `InvestmentAdvisor.analyze_item`.  The quote is represented by its one
used field, `volume : Option String` (`price_data.get('volume', '0')`
defaults an absent field to `"0"`); the `try`/`except
(ValueError, AttributeError)` around `int(...)` is modelled by the
`Option`-valued parse (failure adds nothing). -/
def analyzeItem (volume : Option String) (trend : String) (potential : ℤ)
    (mode : String) : Analysis :=
  let r0 : ℤ := 50
  let s1 := if isGrowthStr trend then (r0 + 15, [prosTrendTag]) else (r0, ([] : List String))
  analyzeFinish (volumeAdjust s1 volume) trend potential mode

/-- The closed enumeration of labels `detect_trend` can return
(spec §3, `TrendLabel`). -/
inductive TrendLabel where
  | insufficientData
  | stableGrowth
  | decline
  | strongGrowth
  | strongDecline
  | stable
  deriving DecidableEq

/-- The source string of each trend label. -/
def labelText : TrendLabel → String
  | .insufficientData => labelInsufficient
  | .stableGrowth => labelStableGrowth
  | .decline => labelDecline
  | .strongGrowth => labelStrongGrowth
  | .strongDecline => labelStrongDecline
  | .stable => labelStable

/-- The spec's growth-bearing labels (`StableGrowth` and `StrongGrowth`). -/
def growthBearing : TrendLabel → Bool
  | .stableGrowth => true
  | .strongGrowth => true
  | _ => false

/-- The spec's decline-bearing labels (`Decline` and `StrongDecline`). -/
def declineBearing : TrendLabel → Bool
  | .decline => true
  | .strongDecline => true
  | _ => false

/-- The claim-side volume condition: the quote's volume field,
comma-stripped, parses as an integer greater than 100. -/
def volumeHigh (volume : Option String) : Bool :=
  match pyParseInt (stripCommas (volume.getD defaultVolume)) with
  | some v => decide (100 < v)
  | none => false

/-- The Python exception kinds relevant to the analytics core. -/
inductive PyErr where
  | zeroDiv
  | valueErr
  | indexErr
  deriving DecidableEq

/-- Python division: `ZeroDivisionError` on a zero denominator. -/
def pyDiv (a b : ℚ) : Except PyErr ℚ :=
  if b = 0 then .error .zeroDiv else .ok (a / b)

/-- Python list indexing `l[i]`, negative indices counting from the end;
`IndexError` when out of range. -/
def pyIdx (l : List ℚ) (i : ℤ) : Except PyErr ℚ :=
  let j : ℤ := if i < 0 then i + l.length else i
  if 0 ≤ j ∧ j < l.length then .ok (l.getD j.toNat 0) else .error .indexErr

/-- Python `min(l)`: `ValueError` on an empty list. -/
def pyMinE : List ℚ → Except PyErr ℚ
  | [] => .error .valueErr
  | x :: xs => .ok (xs.foldl min x)

/-- Python `max(l)`: `ValueError` on an empty list. -/
def pyMaxE : List ℚ → Except PyErr ℚ
  | [] => .error .valueErr
  | x :: xs => .ok (xs.foldl max x)

/-- Python `int(s)`: `ValueError` when the string does not parse. -/
def pyToIntE (s : String) : Except PyErr ℤ :=
  match pyParseInt s with
  | some v => .ok v
  | none => .error .valueErr

/-- `add_price_point` contains no fallible operation, so its `Except` form
is the pure function under `.ok`. -/
def addPricePointE (hist : List PricePoint) (price : ℚ) (now : ℚ) :
    Except PyErr (List PricePoint) :=
  .ok (addPricePoint hist price now)

/-- `detect_trend` with its `try`/`except (IndexError, ZeroDivisionError)`
modelled explicitly: those two error kinds map to the insufficient-data
label, any other would propagate.  The `all(...)` comparisons index only
in range and cannot fail. -/
def detectTrendE (prices : List ℚ) : Except PyErr String :=
  if prices.length < 3 then .ok labelInsufficient
  else
    let ps := lastN 7 prices
    if ps.length < 2 then .ok labelInsufficient
    else
      let body : Except PyErr String :=
        if allInc ps then .ok labelStableGrowth
        else if allDec ps then .ok labelDecline
        else do
          let lastP ← pyIdx ps (-1)
          let firstP ← pyIdx ps 0
          if lastP > firstP * (11 / 10) then .ok labelStrongGrowth
          else if lastP < firstP * (9 / 10) then .ok labelStrongDecline
          else .ok labelStable
      match body with
      | .ok v => .ok v
      | .error .indexErr => .ok labelInsufficient
      | .error .zeroDiv => .ok labelInsufficient
      | .error e => .error e

/-- `calculate_profit_potential` with its `try`/`except (ZeroDivisionError,
ValueError)` modelled explicitly: those two kinds map to 50, an uncaught
`IndexError` would propagate. -/
def calculateProfitPotentialE (prices : List ℚ) : Except PyErr ℤ :=
  if prices.length < 5 then .ok 50
  else
    let ps := lastN 14 prices
    let body : Except PyErr ℤ := do
      let mn ← pyMinE ps
      let mx ← pyMaxE ps
      if mn = 0 then .ok 50
      else do
        let v ← pyDiv (mx - mn) mn
        let volatility := v * 100
        let lastP ← pyIdx ps (-1)
        let firstP ← pyIdx ps 0
        let t ← pyDiv (lastP - firstP) firstP
        let trend := t * 100
        .ok (pyClamp (pyInt (50 + trend * 2 + volatility * (1 / 2))))
    match body with
    | .ok v => .ok v
    | .error .zeroDiv => .ok 50
    | .error .valueErr => .ok 50
    | .error e => .error e

/-- `predict_price` with its `try`/`except (ZeroDivisionError, ValueError,
IndexError)` modelled explicitly (the handler catches every kind and
returns the neutral/0 dict). -/
def predictPriceE (prices : List ℚ) (days : ℤ) : Except PyErr Prediction :=
  if prices.length < 10 then .ok { prediction := predNeutral, confidence := 0 }
  else
    let data := lastN 30 prices
    let body : Except PyErr Prediction := do
      let n : ℚ := data.length
      let xMean := n / 2
      let yMean ← pyDiv data.sum n
      let numerator := (data.enum.map (fun ip => ((ip.1 : ℚ) - xMean) * (ip.2 - yMean))).sum
      let denominator := ((List.range data.length).map (fun i => ((i : ℚ) - xMean) ^ 2)).sum
      let slope ← if denominator = 0 then Except.ok 0 else pyDiv numerator denominator
      let predictedChange := slope * (days : ℚ)
      let current ← pyIdx data (-1)
      if current = 0 then .ok { prediction := predNeutral, confidence := 0 }
      else do
        let c ← pyDiv predictedChange current
        let cp := c * 100
        if cp > 5 then
          .ok { prediction := predBullish, confidence := min 85 (pyInt (60 + |cp|)) }
        else if cp < -5 then
          .ok { prediction := predBearish, confidence := min 85 (pyInt (60 + |cp|)) }
        else .ok { prediction := predNeutral, confidence := 70 }
    match body with
    | .ok v => .ok v
    | .error _ => .ok { prediction := predNeutral, confidence := 0 }

/-- `analyze_item` with the `try`/`except (ValueError, AttributeError)`
around the volume parse modelled explicitly (`AttributeError` cannot
arise on string data; an uncaught kind would propagate). -/
def analyzeItemE (volume : Option String) (trend : String) (potential : ℤ)
    (mode : String) : Except PyErr Analysis :=
  let r0 : ℤ := 50
  let s1 := if isGrowthStr trend then (r0 + 15, [prosTrendTag]) else (r0, ([] : List String))
  let volStep : Except PyErr (ℤ × List String) := do
    let v ← pyToIntE (stripCommas (volume.getD defaultVolume))
    if v > 100 then .ok (s1.1 + 10, s1.2 ++ [prosLiquidityTag]) else .ok s1
  match volStep with
  | .ok s2 => .ok (analyzeFinish s2 trend potential mode)
  | .error .valueErr => .ok (analyzeFinish s1 trend potential mode)
  | .error e => .error e

/-! ### Helper lemmas -/

/-- The last-`n` window has length `min n (length l)`. -/
theorem lastN_length (n : ℕ) (l : List ℚ) : (lastN n l).length = min n l.length := by
  simp only [lastN, List.length_drop]
  omega

/-- The last-`n` window is a subset of the series. -/
theorem lastN_subset (n : ℕ) (l : List ℚ) : lastN n l ⊆ l :=
  List.drop_subset _ _

/-- The clamp is bounded below by 0. -/
theorem pyClamp_nonneg (x : ℤ) : 0 ≤ pyClamp x := le_max_left 0 _

/-- The clamp is bounded above by 100. -/
theorem pyClamp_le (x : ℤ) : pyClamp x ≤ 100 :=
  max_le (by norm_num) (min_le_left 100 x)

/-- The indexed all-increasing check is the pairwise chain property. -/
theorem allInc_iff (l : List ℚ) : allInc l = true ↔ l.Chain' (· < ·) := by
  rw [List.chain'_iff_get]
  unfold allInc
  rw [List.all_eq_true]
  constructor
  · intro h i hi
    have h2 := h i (List.mem_range.mpr hi)
    rw [decide_eq_true_iff] at h2
    have e1 : l.getD i 0 = l.get ⟨i, by omega⟩ := by
      rw [List.getD_eq_getElem?_getD, List.getElem?_eq_getElem (by omega), Option.getD_some,
        List.get_eq_getElem]
    have e2 : l.getD (i + 1) 0 = l.get ⟨i + 1, by omega⟩ := by
      rw [List.getD_eq_getElem?_getD, List.getElem?_eq_getElem (by omega), Option.getD_some,
        List.get_eq_getElem]
    rw [e1, e2] at h2
    exact h2
  · intro h i hi
    rw [List.mem_range] at hi
    rw [decide_eq_true_iff]
    have h2 := h i hi
    have e1 : l.getD i 0 = l.get ⟨i, by omega⟩ := by
      rw [List.getD_eq_getElem?_getD, List.getElem?_eq_getElem (by omega), Option.getD_some,
        List.get_eq_getElem]
    have e2 : l.getD (i + 1) 0 = l.get ⟨i + 1, by omega⟩ := by
      rw [List.getD_eq_getElem?_getD, List.getElem?_eq_getElem (by omega), Option.getD_some,
        List.get_eq_getElem]
    rw [e1, e2]
    exact h2

/-- The indexed all-decreasing check is the pairwise chain property. -/
theorem allDec_iff (l : List ℚ) : allDec l = true ↔ l.Chain' (· > ·) := by
  rw [List.chain'_iff_get]
  unfold allDec
  rw [List.all_eq_true]
  constructor
  · intro h i hi
    have h2 := h i (List.mem_range.mpr hi)
    rw [decide_eq_true_iff] at h2
    have e1 : l.getD i 0 = l.get ⟨i, by omega⟩ := by
      rw [List.getD_eq_getElem?_getD, List.getElem?_eq_getElem (by omega), Option.getD_some,
        List.get_eq_getElem]
    have e2 : l.getD (i + 1) 0 = l.get ⟨i + 1, by omega⟩ := by
      rw [List.getD_eq_getElem?_getD, List.getElem?_eq_getElem (by omega), Option.getD_some,
        List.get_eq_getElem]
    rw [e1, e2] at h2
    exact h2
  · intro h i hi
    rw [List.mem_range] at hi
    rw [decide_eq_true_iff]
    have h2 := h i hi
    have e1 : l.getD i 0 = l.get ⟨i, by omega⟩ := by
      rw [List.getD_eq_getElem?_getD, List.getElem?_eq_getElem (by omega), Option.getD_some,
        List.get_eq_getElem]
    have e2 : l.getD (i + 1) 0 = l.get ⟨i + 1, by omega⟩ := by
      rw [List.getD_eq_getElem?_getD, List.getElem?_eq_getElem (by omega), Option.getD_some,
        List.get_eq_getElem]
    rw [e1, e2]
    exact h2

/-- Indexing a nonempty list at 0 succeeds. -/
theorem pyIdx_zero (l : List ℚ) (h : l ≠ []) : pyIdx l 0 = .ok (l.getD 0 0) := by
  have hl : 0 < l.length := List.length_pos.mpr h
  simp only [pyIdx]
  rw [if_neg (by omega : ¬ ((0 : ℤ) < 0))]
  rw [if_pos (by constructor <;> omega)]
  rfl

/-- Indexing a nonempty list at -1 succeeds and yields the last element. -/
theorem pyIdx_last (l : List ℚ) (h : l ≠ []) :
    pyIdx l (-1) = .ok (l.getD (l.length - 1) 0) := by
  have hl : 0 < l.length := List.length_pos.mpr h
  simp only [pyIdx]
  rw [if_pos (by omega : (-1 : ℤ) < 0)]
  rw [if_pos (by constructor <;> omega)]
  have ht : ((-1 : ℤ) + l.length).toNat = l.length - 1 := by omega
  rw [ht]

/-- `min` of a nonempty list succeeds. -/
theorem pyMinE_ok (l : List ℚ) (h : l ≠ []) : pyMinE l = .ok (listMin l) := by
  cases l with
  | nil => exact absurd rfl h
  | cons x xs => rfl

/-- `max` of a nonempty list succeeds. -/
theorem pyMaxE_ok (l : List ℚ) (h : l ≠ []) : pyMaxE l = .ok (listMax l) := by
  cases l with
  | nil => exact absurd rfl h
  | cons x xs => rfl

/-- A left `min`-fold is below its initial value. -/
theorem foldl_min_le_init (xs : List ℚ) (a : ℚ) : xs.foldl min a ≤ a := by
  induction xs generalizing a with
  | nil => simp
  | cons y ys ih =>
    simp only [List.foldl_cons]
    exact le_trans (ih (min a y)) (min_le_left a y)

/-- A left `min`-fold is below every list element. -/
theorem foldl_min_le_mem (xs : List ℚ) (a x : ℚ) (hx : x ∈ xs) : xs.foldl min a ≤ x := by
  induction xs generalizing a with
  | nil => cases hx
  | cons y ys ih =>
    simp only [List.foldl_cons]
    rcases List.mem_cons.mp hx with h | h
    · subst h
      exact le_trans (foldl_min_le_init ys (min a x)) (min_le_right a x)
    · exact ih (min a y) h

/-- A left `min`-fold returns its initial value or a list element. -/
theorem foldl_min_mem (xs : List ℚ) (a : ℚ) :
    xs.foldl min a = a ∨ xs.foldl min a ∈ xs := by
  induction xs generalizing a with
  | nil => left; rfl
  | cons y ys ih =>
    simp only [List.foldl_cons]
    rcases ih (min a y) with h | h
    · rw [h]
      rcases le_total a y with hay | hay
      · left; exact min_eq_left hay
      · right; rw [min_eq_right hay]; exact List.mem_cons_self y ys
    · right; exact List.mem_cons_of_mem y h

/-- `listMin` is a lower bound of the list. -/
theorem listMin_le (l : List ℚ) (x : ℚ) (hx : x ∈ l) : listMin l ≤ x := by
  cases l with
  | nil => cases hx
  | cons y ys =>
    rcases List.mem_cons.mp hx with h | h
    · subst h; exact foldl_min_le_init ys x
    · exact foldl_min_le_mem ys y x h

/-- `listMin` of a nonempty list is one of its elements. -/
theorem listMin_mem (l : List ℚ) (h : l ≠ []) : listMin l ∈ l := by
  cases l with
  | nil => exact absurd rfl h
  | cons y ys =>
    show ys.foldl min y ∈ y :: ys
    rcases foldl_min_mem ys y with h2 | h2
    · rw [h2]; exact List.mem_cons_self y ys
    · exact List.mem_cons_of_mem y h2

/-! ### Claim theorems -/

/-- C1 (code slip): on the perfectly linear 10-point series
`[10, 12, …, 28]` of slope 2, the fit of `predict_price` computes slope
`33/17 ≈ 1.94` — not the claimed exact 2 — because the source sets
`x_mean = n / 2` while the mean of the indices `0 … n-1` is `(n-1)/2`;
the resulting `change_percent` is `slope * 7 / 28 * 100 = 825/17`. -/
theorem olsSlope_linear_not_two :
    olsSlope [10, 12, 14, 16, 18, 20, 22, 24, 26, 28] = 33 / 17 ∧
    (33 : ℚ) / 17 ≠ 2 ∧
    changePercent [10, 12, 14, 16, 18, 20, 22, 24, 26, 28] 7 = 825 / 17 := by
  refine ⟨?_, by norm_num, ?_⟩
  · norm_num [olsSlope, List.enum, List.enumFrom, List.range_succ]
  · norm_num [changePercent, olsSlope, lastN, List.enum, List.enumFrom, List.range_succ]

/-- C2 counterexample: a negative price is not rejected — `add_price_point`
on an empty series appends the point `{price := -5, timestamp := 0}`
instead of leaving the series unchanged. -/
theorem addPricePoint_negative_not_rejected :
    addPricePoint [] (-5) 0 ≠ [] := by
  norm_num [addPricePoint, List.filter]

/-- C2 amended: `add_price_point` validates nothing — for every price value
(negative included) it appends the point, stamped with the insertion
time, and the appended point survives the retention filter; it never
raises (its `Except` form is the pure result under `.ok`). -/
theorem addPricePoint_appends (hist : List PricePoint) (price now : ℚ) :
    ({ price := price, timestamp := now } : PricePoint) ∈ addPricePoint hist price now ∧
    addPricePointE hist price now = .ok (addPricePoint hist price now) := by
  refine ⟨?_, rfl⟩
  unfold addPricePoint
  rw [List.mem_filter]
  constructor
  · exact List.mem_append_right _ (List.mem_singleton_self _)
  · rw [decide_eq_true_iff]
    linarith

/-- C7: the recommendation thresholds are mode-dependent — investor 70/50
(Buy/Watch/Avoid), trader 60/45 (Buy/ConditionalBuy/Skip) — and at
rating 65 the modes disagree: investor Watch, trader Buy. -/
theorem recommendationFor_thresholds (rating : ℤ) :
    recommendationFor modeInvestor rating =
      (if 70 < rating then (recBuy, stratInvestBuy)
       else if 50 < rating then (recWatch, stratInvestWatch)
       else (recAvoid, stratInvestAvoid)) ∧
    recommendationFor modeTrader rating =
      (if 60 < rating then (recBuy, stratTradeBuy)
       else if 45 < rating then (recCondBuy, stratTradeCond)
       else (recSkip, stratTradeSkip)) ∧
    recommendationFor modeInvestor 65 = (recWatch, stratInvestWatch) ∧
    recommendationFor modeTrader 65 = (recBuy, stratTradeBuy) := by
  refine ⟨?_, ?_, by decide, by decide⟩
  · unfold recommendationFor
    rw [if_pos rfl]
  · unfold recommendationFor
    rw [if_neg (by decide : ¬ (modeTrader = modeInvestor))]

/-- C10: every mode string other than exactly `investor` — `news` and any
unrecognized value included — falls into the `else` branch with the
trader thresholds 60/45; no mode is rejected. -/
theorem recommendationFor_default_trader (mode : String) (rating : ℤ)
    (hmode : mode ≠ modeInvestor) :
    recommendationFor mode rating =
      (if 60 < rating then (recBuy, stratTradeBuy)
       else if 45 < rating then (recCondBuy, stratTradeCond)
       else (recSkip, stratTradeSkip)) := by
  unfold recommendationFor
  rw [if_neg hmode]

/-- The trader thresholds demonstrably apply to the mode string `news`. -/
theorem recommendationFor_default_trader_witness :
    recommendationFor modeNews 65 = (recBuy, stratTradeBuy) := by
  rw [recommendationFor_default_trader modeNews 65 (by decide)]
  decide

/-- C8: after any sequence of `add_price_point` calls, the last at time
`now`, every point remaining in the item's series is strictly newer than
`now - 30` days — the retention sweep runs on every insert. -/
theorem retention_invariant (init : List PricePoint) (ops : List (ℚ × ℚ))
    (price now : ℚ) (pt : PricePoint)
    (hmem : pt ∈ runOps init (ops ++ [(price, now)])) :
    now - 30 < pt.timestamp := by
  unfold runOps at hmem
  rw [List.foldl_append] at hmem
  simp only [List.foldl_cons, List.foldl_nil] at hmem
  unfold addPricePoint at hmem
  rw [List.mem_filter] at hmem
  exact of_decide_eq_true hmem.2

/-- A concrete instance of the retention invariant. -/
theorem retention_invariant_witness :
    (100 : ℚ) - 30 < ({ price := 5, timestamp := 100 } : PricePoint).timestamp :=
  retention_invariant [] [] 5 100 { price := 5, timestamp := 100 }
    (by norm_num [runOps, addPricePoint, List.filter])

/-- C3: with at least 3 stored points, `detect_trend` evaluates its rules
in priority order over the last-7 window — all consecutive pairs strictly
increasing, then all strictly decreasing, then `last > first * 1.1`, then
`last < first * 0.9`, then stable — the monotonic-run checks taking
precedence over the percentage thresholds; with fewer than 3 points it
returns the insufficient-data label regardless of values. -/
theorem detectTrend_priority (prices : List ℚ) :
    (prices.length < 3 → detectTrend prices = labelInsufficient) ∧
    (3 ≤ prices.length →
      detectTrend prices =
        (if (lastN 7 prices).Chain' (· < ·) then labelStableGrowth
         else if (lastN 7 prices).Chain' (· > ·) then labelDecline
         else if (lastN 7 prices).getD ((lastN 7 prices).length - 1) 0
             > (lastN 7 prices).getD 0 0 * (11 / 10) then labelStrongGrowth
         else if (lastN 7 prices).getD ((lastN 7 prices).length - 1) 0
             < (lastN 7 prices).getD 0 0 * (9 / 10) then labelStrongDecline
         else labelStable)) := by
  constructor
  · intro h
    simp only [detectTrend]
    rw [if_pos h]
  · intro h
    have h3 : ¬ prices.length < 3 := by omega
    have h2 : ¬ (lastN 7 prices).length < 2 := by
      have := lastN_length 7 prices
      omega
    simp only [detectTrend]
    rw [if_neg h3, if_neg h2]
    by_cases hinc : (lastN 7 prices).Chain' (· < ·)
    · rw [if_pos ((allInc_iff _).mpr hinc), if_pos hinc]
    · rw [if_neg (fun hh => hinc ((allInc_iff _).mp hh)), if_neg hinc]
      by_cases hdec : (lastN 7 prices).Chain' (· > ·)
      · rw [if_pos ((allDec_iff _).mpr hdec), if_pos hdec]
      · rw [if_neg (fun hh => hdec ((allDec_iff _).mp hh)), if_neg hdec]

/-- A concrete instance of the trend rules: the spec's non-monotonic
example `[10, 10.2, 10.1, 9.9, 11.3]` (last above first by more than 10%)
classifies as strong growth, and a 2-point series is insufficient data. -/
theorem detectTrend_priority_witness :
    detectTrend [10, 102/10, 101/10, 99/10, 113/10] = labelStrongGrowth ∧
    detectTrend [10, 12] = labelInsufficient := by
  constructor
  · have h := (detectTrend_priority [10, 102/10, 101/10, 99/10, 113/10]).2 (by norm_num)
    rw [h]
    norm_num [lastN, List.chain'_cons, List.chain'_singleton, List.getD_cons_zero,
      List.getD_cons_succ]
  · exact (detectTrend_priority [10, 12]).1 (by norm_num)

/-- C4: `calculate_profit_potential` returns exactly 50 when fewer than 5
points exist or when the minimum over the last-14 window is 0; otherwise
(over the data model's nonnegative prices) it returns
`int(50 + 2*trend% + 0.5*volatility%)` clamped to `[0, 100]`. -/
theorem calculateProfitPotential_formula (prices : List ℚ)
    (hnn : ∀ p ∈ prices, 0 ≤ p) :
    (prices.length < 5 → calculateProfitPotential prices = 50) ∧
    (5 ≤ prices.length →
      (listMin (lastN 14 prices) = 0 → calculateProfitPotential prices = 50) ∧
      (listMin (lastN 14 prices) ≠ 0 →
        calculateProfitPotential prices =
          pyClamp (pyInt (50
            + 2 * (((lastN 14 prices).getD ((lastN 14 prices).length - 1) 0
                - (lastN 14 prices).getD 0 0) / (lastN 14 prices).getD 0 0 * 100)
            + (1 / 2) * ((listMax (lastN 14 prices) - listMin (lastN 14 prices))
                / listMin (lastN 14 prices) * 100))))) := by
  constructor
  · intro h
    simp only [calculateProfitPotential]
    rw [if_pos h]
  · intro h5
    have h5' : ¬ prices.length < 5 := by omega
    constructor
    · intro hmn
      simp only [calculateProfitPotential]
      rw [if_neg h5', if_pos hmn]
    · intro hmn
      have hne : lastN 14 prices ≠ [] := by
        have := lastN_length 14 prices
        intro hnil
        rw [hnil] at this
        simp only [List.length_nil] at this
        omega
      have hmn0 : 0 ≤ listMin (lastN 14 prices) :=
        hnn _ (lastN_subset 14 prices (listMin_mem _ hne))
      have hfirst : (lastN 14 prices).getD 0 0 ∈ lastN 14 prices := by
        cases hcase : lastN 14 prices with
        | nil => exact absurd hcase hne
        | cons y ys =>
          rw [List.getD_cons_zero]
          exact List.mem_cons_self y ys
      have hfne : (lastN 14 prices).getD 0 0 ≠ 0 := by
        have hle := listMin_le _ _ hfirst
        intro h0
        rw [h0] at hle
        exact hmn (le_antisymm hle hmn0)
      simp only [calculateProfitPotential]
      rw [if_neg h5', if_neg hmn, if_neg hfne]
      congr 2
      ring

/-- A concrete instance of the potential formula: the spec's example window
of thirteen 100s then 150 gives `int(50 + 2*50 + 0.5*50) = 175`, clamped
to 100. -/
theorem calculateProfitPotential_formula_witness :
    calculateProfitPotential
      [100, 100, 100, 100, 100, 100, 100, 100, 100, 100, 100, 100, 100, 150] = 100 := by
  have h := ((calculateProfitPotential_formula
      [100, 100, 100, 100, 100, 100, 100, 100, 100, 100, 100, 100, 100, 150]
      (by norm_num)).2 (by norm_num)).2 (by norm_num [lastN, listMin])
  rw [h]
  norm_num [lastN, listMin, listMax, pyInt, pyClamp]

/-- C9: with at least 10 stored points, `predict_price` classifies
`change_percent > 5` as bullish and `< -5` as bearish, each with
confidence `min(85, int(60 + |change_percent|))`, and otherwise neutral
with confidence exactly 70; with fewer than 10 points, or a zero last
price in the 30-point window, it returns neutral with confidence 0. -/
theorem predictPrice_classification (prices : List ℚ) (days : ℤ) :
    (prices.length < 10 →
      predictPrice prices days = { prediction := predNeutral, confidence := 0 }) ∧
    (10 ≤ prices.length →
      ((lastN 30 prices).getD ((lastN 30 prices).length - 1) 0 = 0 →
        predictPrice prices days = { prediction := predNeutral, confidence := 0 }) ∧
      ((lastN 30 prices).getD ((lastN 30 prices).length - 1) 0 ≠ 0 →
        (5 < changePercent prices days →
          predictPrice prices days =
            { prediction := predBullish,
              confidence := min 85 (pyInt (60 + |changePercent prices days|)) }) ∧
        (changePercent prices days < -5 →
          predictPrice prices days =
            { prediction := predBearish,
              confidence := min 85 (pyInt (60 + |changePercent prices days|)) }) ∧
        (-5 ≤ changePercent prices days → changePercent prices days ≤ 5 →
          predictPrice prices days = { prediction := predNeutral, confidence := 70 }))) := by
  constructor
  · intro h
    simp only [predictPrice]
    rw [if_pos h]
  · intro h10
    have h10' : ¬ prices.length < 10 := by omega
    constructor
    · intro hz
      simp only [predictPrice]
      rw [if_neg h10', if_pos hz]
    · intro hz
      refine ⟨?_, ?_, ?_⟩
      · intro hcp
        simp only [changePercent] at hcp
        simp only [predictPrice]
        rw [if_neg h10', if_neg hz, if_pos hcp]
        simp only [changePercent]
      · intro hcp
        simp only [changePercent] at hcp
        have hnot : ¬ (5 : ℚ) < olsSlope (lastN 30 prices) * (days : ℚ)
            / (lastN 30 prices).getD ((lastN 30 prices).length - 1) 0 * 100 := by
          intro hlt
          linarith
        simp only [predictPrice]
        rw [if_neg h10', if_neg hz, if_neg hnot, if_pos hcp]
        simp only [changePercent]
      · intro hge hle
        simp only [changePercent] at hge hle
        simp only [predictPrice]
        rw [if_neg h10', if_neg hz, if_neg (not_lt.mpr hle), if_neg (not_lt.mpr hge)]

/-- A concrete instance of the forecast classification: the linear series
`[10, 12, …, 28]` has `change_percent = 825/17 ≈ 48.5 > 5`, hence a
bullish call at the confidence cap 85; a 2-point series is insufficient
and returns neutral with confidence 0. -/
theorem predictPrice_classification_witness :
    predictPrice [10, 12, 14, 16, 18, 20, 22, 24, 26, 28] 7 =
      { prediction := predBullish, confidence := 85 } ∧
    predictPrice [10, 12] 7 = { prediction := predNeutral, confidence := 0 } := by
  constructor
  · have hcp : changePercent [10, 12, 14, 16, 18, 20, 22, 24, 26, 28] 7 = 825 / 17 := by
      norm_num [changePercent, olsSlope, lastN, List.enum, List.enumFrom, List.range_succ]
    have hcur : ((lastN 30 [10, 12, 14, 16, 18, 20, 22, 24, 26, 28]).getD
        ((lastN 30 [10, 12, 14, 16, 18, 20, 22, 24, 26, 28]).length - 1) 0 : ℚ) ≠ 0 := by
      norm_num [lastN, List.getD_cons_zero, List.getD_cons_succ]
    have h := (((predictPrice_classification [10, 12, 14, 16, 18, 20, 22, 24, 26, 28] 7).2
        (by norm_num)).2 hcur).1 (by rw [hcp]; norm_num)
    rw [h, hcp]
    have hfl : ⌊(1845 : ℚ) / 17⌋ = 108 := by
      rw [Int.floor_eq_iff]
      norm_num
    have habs : |(825 : ℚ) / 17| = 825 / 17 := by norm_num
    norm_num [pyInt, habs, hfl]
  · exact (predictPrice_classification [10, 12] 7).1 (by norm_num)

/-- The tail of `analyze_item` clamps the rating accumulated through the
potential and decline adjustments. -/
theorem analyzeFinish_rating (s2 : ℤ × List String) (trend : String) (potential : ℤ)
    (mode : String) :
    (analyzeFinish s2 trend potential mode).rating =
      pyClamp (s2.1 + (if 70 < potential then 10 else 0)
        - (if isDeclineStr trend = true then 15 else 0)) := by
  simp only [analyzeFinish]
  split_ifs <;> (try dsimp only) <;> (congr 1; ring)

/-- The volume adjustment raises the rating by exactly 10 when the parsed
volume exceeds 100, and otherwise leaves it unchanged. -/
theorem volumeAdjust_fst (s1 : ℤ × List String) (volume : Option String) :
    (volumeAdjust s1 volume).1 = s1.1 + (if volumeHigh volume then 10 else 0) := by
  have haux : ∀ o : Option ℤ,
      (match o with
        | some v => if v > 100 then (s1.1 + 10, s1.2 ++ [prosLiquidityTag]) else s1
        | none => s1).1 =
      s1.1 + (if (match o with | some v => decide (100 < v) | none => false) = true
        then 10 else 0) := by
    intro o
    cases o with
    | none => simp
    | some v => by_cases h : (100 : ℤ) < v <;> simp [h]
  simp only [volumeAdjust, volumeHigh]
  exact haux (pyParseInt (stripCommas (volume.getD defaultVolume)))

/-- C6: the rating of `analyze_item` is 50 plus 15 for a growth-bearing
label, plus 10 when the comma-stripped volume parses to an integer above
100 (a parse failure adds nothing), plus 10 for potential above 70, minus
15 for a decline-bearing label, clamped to `[0, 100]`; no other
adjustment exists, so the rating always lies in `[0, 100]`. -/
theorem analyzeItem_rating (volume : Option String) (lbl : TrendLabel)
    (potential : ℤ) (mode : String) :
    (analyzeItem volume (labelText lbl) potential mode).rating =
      pyClamp (50 + (if growthBearing lbl then 15 else 0)
        + (if volumeHigh volume then 10 else 0)
        + (if 70 < potential then 10 else 0)
        - (if declineBearing lbl then 15 else 0)) ∧
    0 ≤ (analyzeItem volume (labelText lbl) potential mode).rating ∧
    (analyzeItem volume (labelText lbl) potential mode).rating ≤ 100 := by
  have hg : isGrowthStr (labelText lbl) = growthBearing lbl := by
    cases lbl <;> rfl
  have hd : isDeclineStr (labelText lbl) = declineBearing lbl := by
    cases lbl <;> rfl
  have h1 : (analyzeItem volume (labelText lbl) potential mode).rating =
      pyClamp (50 + (if growthBearing lbl then 15 else 0)
        + (if volumeHigh volume then 10 else 0)
        + (if 70 < potential then 10 else 0)
        - (if declineBearing lbl then 15 else 0)) := by
    simp only [analyzeItem]
    rw [analyzeFinish_rating, volumeAdjust_fst, hd, hg]
    by_cases hgb : growthBearing lbl = true <;>
      by_cases hdb : declineBearing lbl = true <;>
        simp [hgb, hdb]
  refine ⟨h1, ?_, ?_⟩
  · rw [h1]; exact pyClamp_nonneg _
  · rw [h1]; exact pyClamp_le _

/-! ### Totality (refinement of the `Except` models) -/

/-- Binding a success just applies the continuation. -/
theorem exc_ok_bind {α β : Type} (a : α) (f : α → Except PyErr β) :
    (Except.ok a >>= f) = f a := rfl

/-- Binding an error propagates it. -/
theorem exc_err_bind {α β : Type} (e : PyErr) (f : α → Except PyErr β) :
    ((Except.error e : Except PyErr α) >>= f) = Except.error e := rfl

/-- Division by a nonzero denominator succeeds. -/
theorem pyDiv_ok (a b : ℚ) (h : b ≠ 0) : pyDiv a b = .ok (a / b) := by
  simp [pyDiv, h]

/-- Division by zero raises. -/
theorem pyDiv_zero (a b : ℚ) (h : b = 0) : pyDiv a b = .error .zeroDiv := by
  simp [pyDiv, h]

/-- The `Except` model of `detect_trend` never leaks an exception. -/
theorem detectTrendE_eq (prices : List ℚ) :
    detectTrendE prices = .ok (detectTrend prices) := by
  simp only [detectTrendE, detectTrend]
  by_cases h3 : prices.length < 3
  · rw [if_pos h3, if_pos h3]
  · rw [if_neg h3, if_neg h3]
    by_cases h2 : (lastN 7 prices).length < 2
    · rw [if_pos h2, if_pos h2]
    · rw [if_neg h2, if_neg h2]
      have hne : lastN 7 prices ≠ [] := by
        intro h
        rw [h] at h2
        simp at h2
      rw [pyIdx_last _ hne, pyIdx_zero _ hne]
      simp only [exc_ok_bind]
      split_ifs <;> rfl

/-- The `Except` model of `calculate_profit_potential` never leaks an
exception; in particular a zero first price with a nonzero minimum (a
negative price in the window) is caught and resolves to 50. -/
theorem calculateProfitPotentialE_eq (prices : List ℚ) :
    calculateProfitPotentialE prices = .ok (calculateProfitPotential prices) := by
  simp only [calculateProfitPotentialE, calculateProfitPotential]
  by_cases h5 : prices.length < 5
  · rw [if_pos h5, if_pos h5]
  · rw [if_neg h5, if_neg h5]
    have hne : lastN 14 prices ≠ [] := by
      have := lastN_length 14 prices
      intro hnil
      rw [hnil] at this
      simp only [List.length_nil] at this
      omega
    rw [pyMinE_ok _ hne, pyMaxE_ok _ hne]
    simp only [exc_ok_bind]
    by_cases hmn : listMin (lastN 14 prices) = 0
    · rw [if_pos hmn, if_pos hmn]
    · rw [if_neg hmn, if_neg hmn, pyDiv_ok _ _ hmn]
      simp only [exc_ok_bind]
      rw [pyIdx_last _ hne, pyIdx_zero _ hne]
      simp only [exc_ok_bind]
      by_cases hf : (lastN 14 prices).getD 0 0 = 0
      · rw [if_pos hf, pyDiv_zero _ _ hf]
        rfl
      · rw [if_neg hf, pyDiv_ok _ _ hf]
        rfl

/-- The `Except` model of `predict_price` never leaks an exception. -/
theorem predictPriceE_eq (prices : List ℚ) (days : ℤ) :
    predictPriceE prices days = .ok (predictPrice prices days) := by
  simp only [predictPriceE, predictPrice, olsSlope]
  by_cases h10 : prices.length < 10
  · rw [if_pos h10, if_pos h10]
  · rw [if_neg h10, if_neg h10]
    have hlen := lastN_length 30 prices
    have hne : lastN 30 prices ≠ [] := by
      intro hnil
      rw [hnil] at hlen
      simp only [List.length_nil] at hlen
      omega
    have hn : ((lastN 30 prices).length : ℚ) ≠ 0 := by
      rw [Nat.cast_ne_zero]
      omega
    rw [pyDiv_ok _ _ hn]
    simp only [exc_ok_bind]
    by_cases hden : (((List.range (lastN 30 prices).length).map
        (fun i => ((i : ℚ) - ((lastN 30 prices).length : ℚ) / 2) ^ 2)).sum : ℚ) = 0
    · rw [if_pos hden, if_pos hden]
      rw [pyIdx_last _ hne]
      simp only [exc_ok_bind]
      by_cases hcur : (lastN 30 prices).getD ((lastN 30 prices).length - 1) 0 = 0
      · rw [if_pos hcur, if_pos hcur]
      · rw [if_neg hcur, if_neg hcur, pyDiv_ok _ _ hcur]
        simp only [exc_ok_bind]
        split_ifs <;> rfl
    · rw [if_neg hden, if_neg hden, pyDiv_ok _ _ hden]
      try simp only [exc_ok_bind]
      rw [pyIdx_last _ hne]
      simp only [exc_ok_bind]
      by_cases hcur : (lastN 30 prices).getD ((lastN 30 prices).length - 1) 0 = 0
      · rw [if_pos hcur, if_pos hcur]
      · rw [if_neg hcur, if_neg hcur, pyDiv_ok _ _ hcur]
        simp only [exc_ok_bind]
        split_ifs <;> rfl

/-- The `Except` model of `analyze_item` never leaks an exception. -/
theorem analyzeItemE_eq (volume : Option String) (trend : String) (potential : ℤ)
    (mode : String) :
    analyzeItemE volume trend potential mode =
      .ok (analyzeItem volume trend potential mode) := by
  have haux : ∀ (o : Option ℤ) (s1 : ℤ × List String),
      (match ((match o with
          | some v => (Except.ok v : Except PyErr ℤ)
          | none => Except.error PyErr.valueErr) >>= fun v =>
            if v > 100 then Except.ok (s1.1 + 10, s1.2 ++ [prosLiquidityTag])
            else Except.ok s1) with
        | .ok s2 => Except.ok (analyzeFinish s2 trend potential mode)
        | .error .valueErr => Except.ok (analyzeFinish s1 trend potential mode)
        | .error e => Except.error e) =
      Except.ok (analyzeFinish (match o with
          | some v => if v > 100 then (s1.1 + 10, s1.2 ++ [prosLiquidityTag]) else s1
          | none => s1) trend potential mode) := by
    intro o s1
    cases o with
    | none => rfl
    | some v =>
      simp only [exc_ok_bind]
      split_ifs <;> rfl
  simp only [analyzeItemE, analyzeItem, pyToIntE, volumeAdjust]
  exact haux (pyParseInt (stripCommas (volume.getD defaultVolume))) _

/-- C5: every public analytics operation is total — the `Except`-valued
models of `add_price_point`, `detect_trend`, `calculate_profit_potential`,
`predict_price` and `analyze_item` return `.ok` of the pure result on
every input, empty series and absent or malformed quote fields included;
no exception reaches the caller, and the insufficient-data and
degenerate-arithmetic branches land on the neutral defaults the pure
definitions encode. -/
theorem analytics_total (prices : List ℚ) (days : ℤ) (hist : List PricePoint)
    (price now : ℚ) (volume : Option String) (trend : String) (potential : ℤ)
    (mode : String) :
    addPricePointE hist price now = .ok (addPricePoint hist price now) ∧
    detectTrendE prices = .ok (detectTrend prices) ∧
    calculateProfitPotentialE prices = .ok (calculateProfitPotential prices) ∧
    predictPriceE prices days = .ok (predictPrice prices days) ∧
    analyzeItemE volume trend potential mode =
      .ok (analyzeItem volume trend potential mode) :=
  ⟨rfl, detectTrendE_eq prices, calculateProfitPotentialE_eq prices,
    predictPriceE_eq prices days, analyzeItemE_eq volume trend potential mode⟩

end CS2
